import Mathlib

/-!
Verification of the block-prefix grammar, line classifier, selection expander,
code-block locator and prefix-override matcher of the obsidian-blockier plugin.

The definitions below are a shallow embedding of `src/regex.ts`, `src/select.ts`
and `replace.ts` (`tryReplace`).  Lines are modelled as `List Char`; the
JavaScript regexes are hand-compiled into total Lean functions that implement
their exact matching semantics (alternation order, greedy repetition with the
backtracking behaviour the concrete patterns admit).
-/

namespace Blockier

/-- A line of text (a JavaScript string restricted to one line). -/
abbrev Chars := List Char

/-- Character list of a string literal. -/
def str (s : String) : Chars := s.data

/-- The backtick character, written by code so it never appears as a bare token. -/
def bt : Char := '\x60'

/-- JavaScript regex `\s` character class (WhiteSpace plus LineTerminator). -/
def isWS (c : Char) : Bool :=
  c = ' ' || c = '\t' || c = '\n' || c = '\r' || c = '\x0b' || c = '\x0c' ||
  c = ' ' || c = ' ' ||
  (decide (0x2000 ≤ c.toNat) && decide (c.toNat ≤ 0x200a)) ||
  c = ' ' || c = ' ' || c = ' ' || c = ' ' ||
  c = '　' || c = '﻿'

/-- JavaScript regex `.` (any character except a line terminator). -/
def isDot (c : Char) : Bool :=
  !(c = '\n' || c = '\r' || c = ' ' || c = ' ')

/-- JavaScript String.prototype.trim: strip whitespace characters from both ends. -/
def trimChars (cs : Chars) : Chars :=
  (((cs.dropWhile isWS).reverse).dropWhile isWS).reverse

/-- An EditorPosition from the obsidian editor interface. -/
structure Pos where
  line : Nat
  ch : Nat
deriving DecidableEq

/-- An EditorSelection: a direction-sensitive anchor/head pair. -/
structure Sel where
  anchor : Pos
  head : Pos
deriving DecidableEq

/-- A document: the editor's lines. -/
abbrev Doc := List Chars

/-- The accessor editor.getLine of the host editor. -/
def getLine (doc : Doc) (n : Nat) : Chars := doc.getD n []

/- ## Token matchers for the BLOCKS patterns of regex.ts

CHECKBOX is dash, space, bracket, any character, bracket; BULLET is dash, star
or plus; NUMBER is digits then dot or closing parenthesis; HEADING is one to
six hashes; QUOTE is a greater-than sign; CODEBLOCK is three backticks.

Each matcher consumes a token at the head of the list and returns the token
together with the remaining characters. -/

/-- Pattern for a checkbox token: a dash, a space, an opening bracket, any character, a closing bracket. -/
def matchCheckboxTok : Chars → Option (Chars × Chars)
  | '-' :: ' ' :: '[' :: c :: ']' :: rest =>
    if isDot c then some (['-', ' ', '[', c, ']'], rest) else none
  | _ => none

/-- Pattern for a bullet token: a single dash, star or plus. -/
def matchBulletTok : Chars → Option (Chars × Chars)
  | c :: rest => if c = '-' || c = '*' || c = '+' then some ([c], rest) else none
  | [] => none

/-- Greedy tail of the number pattern: digits then a dot or closing parenthesis.
On a digit the match must continue, because giving a digit back to the final
character class can never succeed. -/
def matchNumAux : Chars → Option (Chars × Chars)
  | [] => none
  | c :: rest =>
    if c.isDigit then
      match matchNumAux rest with
      | some (t, r) => some (c :: t, r)
      | none => none
    else if c = '.' || c = ')' then some ([c], rest)
    else none

/-- Pattern for a numbered-list token: one or more digits then a dot or closing parenthesis. -/
def matchNumberTok : Chars → Option (Chars × Chars)
  | [] => none
  | c :: rest => if c.isDigit then matchNumAux (c :: rest) else none

/-- Pattern for a heading token: one to six hashes.  With a mandatory following
character that is not a hash, only the full run of hashes (of length 1..6) can match. -/
def matchHeadingTok (cs : Chars) : Option (Chars × Chars) :=
  let hs := cs.takeWhile (fun c => c = '#')
  if 1 ≤ hs.length ∧ hs.length ≤ 6 then some (hs, cs.drop hs.length) else none

/-- Pattern for a quote token: a single greater-than sign. -/
def matchQuoteTok : Chars → Option (Chars × Chars)
  | '>' :: rest => some (['>'], rest)
  | _ => none

/- ## LINE_START_BLOCK (`regex.ts`)

`(?<prefix>^\s*(?:CHECKBOX|BULLET|NUMBER|HEADING|QUOTE) )|(?:(?<prefix>^CODEBLOCK).+)`

The first alternative is a block token after optional indentation, followed by
exactly one space; the captured group spans indentation, token and the space.
The second alternative is three backticks at line start followed by at least
one further character; the captured group spans just the backticks. -/

/-- One alternative of the first branch: a token match followed by the literal
space the pattern requires; returns the token-plus-space length. -/
def alt1Branch (w : Nat) (tr : Option (Chars × Chars)) : Option Nat :=
  match tr with
  | some (t, c :: _) => if c = ' ' then some (w + t.length + 1) else none
  | _ => none

/-- First alternative of `LINE_START_BLOCK`: total length of
`<indentation><token><one space>`, trying the `ANY_BLOCK` alternatives in
source order (checkbox, bullet, number, heading, quote). -/
def lineStartAlt1 (cs : Chars) : Option Nat :=
  let w := (cs.takeWhile isWS).length
  let rest := cs.drop w
  match alt1Branch w (matchCheckboxTok rest) with
  | some n => some n
  | none =>
    match alt1Branch w (matchBulletTok rest) with
    | some n => some n
    | none =>
      match alt1Branch w (matchNumberTok rest) with
      | some n => some n
      | none =>
        match alt1Branch w (matchHeadingTok rest) with
        | some n => some n
        | none => alt1Branch w (matchQuoteTok rest)

/-- Second alternative of `LINE_START_BLOCK`: three backticks at line start
followed by at least one `.`-matchable character. -/
def codeblockAlt (cs : Chars) : Bool :=
  match cs with
  | a :: b :: c :: d :: _ => a = bt && b = bt && c = bt && isDot d
  | _ => false

/-- Whether a line is matched by `LINE_START_BLOCK` through its code-fence
alternative (the first alternative is tried first by the regex engine). -/
def fenceStyleMatch (cs : Chars) : Bool :=
  (lineStartAlt1 cs).isNone && codeblockAlt cs

/-- Result of matching LINE_START_BLOCK against a line, modelled as an
association list from group name to captured characters.  Both named groups in
the source regex carry the same name, so the key is "prefix" for either
alternative. -/
def lineStartBlock (cs : Chars) : Option (List (String × Chars)) :=
  match lineStartAlt1 cs with
  | some n => some [("prefix", cs.take n)]
  | none =>
    if codeblockAlt cs then some [("prefix", cs.take 3)] else none

/-- Look a capture group up by name, as the optional-chained group access does. -/
def lookupGroup (gs : List (String × Chars)) (k : String) : Option Chars :=
  match gs with
  | [] => none
  | (n, v) :: rest => if n = k then some v else lookupGroup rest k

/-- The paragraph-start computation of selectLine in select.ts: the length of
group prefix0, else of group prefix1, else 0. -/
def paragraphStart (cs : Chars) : Nat :=
  match lineStartBlock cs with
  | none => 0
  | some gs =>
    match lookupGroup gs "prefix0" with
    | some p => p.length
    | none =>
      match lookupGroup gs "prefix1" with
      | some p => p.length
      | none => 0

/- ## Selection expansion (`selectLine` and `orderPositions` in `select.ts`) -/

/-- Function orderPositions from select.ts. -/
def orderPositions (anchor head : Pos) : Pos × Pos :=
  if anchor.line < head.line then (anchor, head)
  else if anchor.line > head.line then (head, anchor)
  else if anchor.ch < head.ch then (anchor, head)
  else (head, anchor)

/-- Function selectLine from select.ts. -/
def selectLine (doc : Doc) (sel : Sel) (avoidPrefixes : Bool) : Sel :=
  let se := orderPositions sel.anchor sel.head
  if se.1.line ≠ se.2.line ∨ avoidPrefixes = false then
    ⟨⟨se.1.line, 0⟩, ⟨se.2.line, (getLine doc se.2.line).length⟩⟩
  else
    let line := getLine doc se.1.line
    ⟨⟨se.1.line, paragraphStart line⟩, ⟨se.1.line, line.length⟩⟩

/- ## IS_OVERRIDING and tryReplace (replace.ts)

IS_OVERRIDING anchors at line start: a named whitespace group, then an
existing token (checkbox, bullet or number, tried in that order), a literal
space, and a new token (bullet or number).  There is no end anchor. -/

/-- An OverrideMatch: whitespace length, existing token, new token, and the
total length of the whole match. -/
structure OvMatch where
  ws : Nat
  existing : Chars
  newTok : Chars
  total : Nat
deriving DecidableEq

/-- The new-token group of IS_OVERRIDING: a bullet, else a number. -/
def matchNew (cs : Chars) : Option Chars :=
  match matchBulletTok cs with
  | some (t, _) => some t
  | none =>
    match matchNumberTok cs with
    | some (t, _) => some t
    | none => none

/-- Continuation after an existing-token alternative: the literal space and
the new-token group.  Failure here makes the engine try the next
existing-token alternative. -/
def ovBranch (w : Nat) (tr : Option (Chars × Chars)) : Option OvMatch :=
  match tr with
  | some (t, c :: r) =>
    if c = ' ' then
      (matchNew r).map (fun nt => ⟨w, t, nt, w + t.length + 1 + nt.length⟩)
    else none
  | _ => none

/-- Matching IS_OVERRIDING against a line. -/
def isOverriding (cs : Chars) : Option OvMatch :=
  let w := (cs.takeWhile isWS).length
  let rest := cs.drop w
  match ovBranch w (matchCheckboxTok rest) with
  | some m => some m
  | none =>
    match ovBranch w (matchBulletTok rest) with
    | some m => some m
    | none => ovBranch w (matchNumberTok rest)

/-- An edit instruction: replace the span between two character offsets of the
cursor's line with the given text (both ends of the replaced range lie on the
cursor's line in tryReplace). -/
structure Edit where
  fromCh : Nat
  toCh : Nat
  text : Chars
deriving DecidableEq

/-- Function tryReplace from replace.ts, reduced to its pure core: given the
cursor's line and character offset, the edit it performs, if any. -/
def tryReplace (line : Chars) (ch : Nat) : Option Edit :=
  match isOverriding line with
  | none => none
  | some m =>
    if m.total ≠ ch then none
    else if m.newTok = m.existing then none
    else some ⟨m.ws, m.total, m.newTok⟩

/-- Modelled from the spec: the host editor's replaceRange primitive
(external interface of section 6), applied to a single-line range on line n,
as tryReplace uses it. -/
def applyEdit (doc : Doc) (n : Nat) (e : Edit) : Doc :=
  doc.set n ((getLine doc n).take e.fromCh ++ e.text ++ (getLine doc n).drop e.toCh)

/- ## Code-block locator (trySelectCodeBlock in select.ts) -/

/-- Whether the two leading characters are both backticks. -/
def twoBt : Chars → Bool
  | a :: b :: _ => a = bt && b = bt
  | _ => false

/-- The match of a triple-backtick-to-end-of-line pattern within one line:
from the first occurrence of three consecutive backticks to the line's end. -/
def lineFenceRest : Chars → Option Chars
  | [] => none
  | c :: rest =>
    if c = bt && twoBt rest then some (c :: rest) else lineFenceRest rest

/-- Whether a string contains three consecutive backticks. -/
def containsFence (cs : Chars) : Bool := (lineFenceRest cs).isSome

/-- Whether a line ends with three backticks. -/
def endsWithFence (cs : Chars) : Bool :=
  match cs.reverse with
  | a :: b :: c :: _ => a = bt && b = bt && c = bt
  | _ => false

/-- Split a string at newline characters. -/
def splitLines (cs : Chars) : List Chars :=
  match cs with
  | [] => [[]]
  | c :: rest =>
    let r := splitLines rest
    if c = '\n' then [] :: r
    else
      match r with
      | [] => [[c]]
      | h :: t => (c :: h) :: t

/-- Join lines with newline characters (for building a text range). -/
def joinLines : List Chars → Chars
  | [] => []
  | [l] => l
  | l :: ls => l ++ '\n' :: joinLines ls

/-- The accessor editor.getRange of the host editor: text between two
positions, the first at or before the second. -/
def getRange (doc : Doc) (a b : Pos) : Chars :=
  if a.line = b.line then ((getLine doc a.line).take b.ch).drop a.ch
  else
    joinLines (((getLine doc a.line).drop a.ch) ::
      ((doc.drop (a.line + 1)).take (b.line - a.line - 1)) ++
      [(getLine doc b.line).take b.ch])

/-- The global matches of the fence-to-end-of-line pattern over a text:
one match per line containing a fence, from its first fence to the line end. -/
def fenceMatches (text : Chars) : List Chars :=
  (splitLines text).filterMap lineFenceRest

/-- One step of the fence-parity scan: a match longer than a bare fence after
trimming marks an opener; otherwise the inside flag toggles. -/
def fenceStep (ins : Bool) (m : Chars) : Bool :=
  if (trimChars m).length > 3 then true else !ins

/-- The fence-parity scan of trySelectCodeBlock over the text above the cursor. -/
def fenceScan (text : Chars) : Bool :=
  (fenceMatches text).foldl fenceStep false

/-- Upward search for the nearest line containing a fence: the loop checks
the current line, returns none once it would step below line 0, and otherwise
moves one line up. -/
def searchUp (doc : Doc) : Nat → Option Nat
  | 0 => if containsFence (getLine doc 0) then some 0 else none
  | n + 1 =>
    if containsFence (getLine doc (n + 1)) then some (n + 1) else searchUp doc n

/-- Downward search, written with the remaining number of lines as structural
fuel; the fuel is lastLine minus the start line, so it runs out exactly when
the loop's boundary test would fire. -/
def searchDownAux (doc : Doc) (lastLine : Nat) : Nat → Nat → Option Nat
  | 0, n => if endsWithFence (getLine doc n) then some n else none
  | fuel + 1, n =>
    if endsWithFence (getLine doc n) then some n
    else if lastLine ≤ n then none
    else searchDownAux doc lastLine fuel (n + 1)

/-- Downward search for the nearest line ending with a fence, bounded by the
last line of the document. -/
def searchDown (doc : Doc) (lastLine n : Nat) : Option Nat :=
  searchDownAux doc lastLine (lastLine - n) n

/-- Text of the current selection, as editor.getSelection returns it. -/
def getSelectionText (doc : Doc) (sel : Sel) : Chars :=
  let se := orderPositions sel.anchor sel.head
  getRange doc se.1 se.2

/-- Function trySelectCodeBlock from select.ts. -/
def trySelectCodeBlock (doc : Doc) (sel : Sel) : Option Sel :=
  if containsFence (getSelectionText doc sel) then none
  else if containsFence (getLine doc sel.anchor.line) then none
  else
    let textAbove := getRange doc ⟨0, 0⟩ sel.anchor
    if fenceScan textAbove = false then none
    else
      match searchUp doc sel.anchor.line with
      | none => none
      | some aL =>
        match searchDown doc (doc.length - 1) sel.head.line with
        | none => none
        | some hL =>
          some ⟨⟨aL + 1, 0⟩, ⟨hL - 1, (getLine doc (hL - 1)).length⟩⟩

/- ## Helper lemmas -/

/-- Any successful match of LINE_START_BLOCK yields a single group named
"prefix" (the name both alternatives carry in the source regex). -/
theorem lineStartBlock_shape (cs : Chars) (gs : List (String × Chars)) :
    lineStartBlock cs = some gs → ∃ p, gs = [("prefix", p)] := by
  unfold lineStartBlock
  intro h
  split at h
  · exact ⟨_, (Option.some_inj.mp h).symm⟩
  · split at h
    · exact ⟨_, (Option.some_inj.mp h).symm⟩
    · cases h

/-- The group lookup of selectLine misses: both named groups of the source
regex are called "prefix", while selectLine reads "prefix0" and "prefix1", so
the reported paragraph start is 0 for every line. -/
theorem paragraphStart_eq_zero (cs : Chars) : paragraphStart cs = 0 := by
  unfold paragraphStart
  cases h : lineStartBlock cs with
  | none => rfl
  | some gs =>
    obtain ⟨p, rfl⟩ := lineStartBlock_shape cs gs h
    simp [lookupGroup]

theorem orderPositions_fst_line_le (a h : Pos) :
    (orderPositions a h).1.line ≤ (orderPositions a h).2.line := by
  unfold orderPositions
  split_ifs <;> simp <;> omega

theorem orderPositions_swap (a h : Pos) :
    orderPositions a h = orderPositions h a := by
  unfold orderPositions
  split_ifs <;> first
    | rfl
    | omega
    | (cases a; cases h; simp_all; omega)

/- ## Soundness of the token matchers -/

theorem matchCheckboxTok_sound (cs t r : Chars)
    (h : matchCheckboxTok cs = some (t, r)) : cs = t ++ r := by
  unfold matchCheckboxTok at h
  split at h
  · split_ifs at h
    cases h
    rfl
  · cases h

theorem matchBulletTok_sound (cs t r : Chars)
    (h : matchBulletTok cs = some (t, r)) : cs = t ++ r := by
  unfold matchBulletTok at h
  split at h
  · split_ifs at h
    cases h
    rfl
  · cases h

theorem matchNumAux_sound : ∀ (cs t r : Chars),
    matchNumAux cs = some (t, r) → cs = t ++ r := by
  intro cs
  induction cs with
  | nil => intro t r h; cases h
  | cons c rest ih =>
    intro t r h
    unfold matchNumAux at h
    split_ifs at h
    · cases hrec : matchNumAux rest with
      | none => rw [hrec] at h; cases h
      | some tr =>
        obtain ⟨t', r'⟩ := tr
        rw [hrec] at h
        cases h
        have hr := ih _ _ hrec
        simp [hr]
    · cases h
      rfl

theorem matchNumberTok_sound (cs t r : Chars)
    (h : matchNumberTok cs = some (t, r)) : cs = t ++ r := by
  cases cs with
  | nil => cases h
  | cons c rest =>
    simp only [matchNumberTok] at h
    split_ifs at h
    exact matchNumAux_sound _ t r h

theorem matchNew_sound (cs nt : Chars) (h : matchNew cs = some nt) :
    ∃ r, cs = nt ++ r := by
  unfold matchNew at h
  cases hb : matchBulletTok cs with
  | some tr =>
    obtain ⟨t, r⟩ := tr
    rw [hb] at h
    cases h
    exact ⟨r, matchBulletTok_sound cs nt r hb⟩
  | none =>
    rw [hb] at h
    cases hn : matchNumberTok cs with
    | some tr =>
      obtain ⟨t, r⟩ := tr
      rw [hn] at h
      cases h
      exact ⟨r, matchNumberTok_sound cs nt r hn⟩
    | none => rw [hn] at h; cases h

theorem ovBranch_sound (w : Nat) (tr : Option (Chars × Chars)) (m : OvMatch)
    (h : ovBranch w tr = some m) :
    ∃ t r nt, tr = some (t, ' ' :: r) ∧ matchNew r = some nt ∧
      m = ⟨w, t, nt, w + t.length + 1 + nt.length⟩ := by
  cases tr with
  | none => cases h
  | some p =>
    obtain ⟨t, r⟩ := p
    cases r with
    | nil => cases h
    | cons c rest =>
      simp only [ovBranch] at h
      split_ifs at h with hc
      subst hc
      cases hn : matchNew rest with
      | none => rw [hn] at h; cases h
      | some nt =>
        rw [hn] at h
        cases h
        exact ⟨t, rest, nt, rfl, hn, rfl⟩

/-- Taking as many characters as the matched takeWhile span returns that span. -/
theorem take_length_takeWhile (p : Char → Bool) (cs : Chars) :
    cs.take (cs.takeWhile p).length = cs.takeWhile p := by
  induction cs with
  | nil => rfl
  | cons c rest ih =>
    by_cases h : p c
    · simp [List.takeWhile_cons, h, ih]
    · simp [List.takeWhile_cons, h]

/-- A successful IS_OVERRIDING match describes the line's actual content:
the whitespace group is the leading whitespace run, the total length is the
sum of the parts, and after the whitespace the line carries the existing
token, one space and the new token. -/
theorem isOverriding_sound (cs : Chars) (m : OvMatch)
    (h : isOverriding cs = some m) :
    m.ws = (cs.takeWhile isWS).length ∧
    m.total = m.ws + m.existing.length + 1 + m.newTok.length ∧
    ∃ r, cs.drop m.ws = m.existing ++ ' ' :: m.newTok ++ r := by
  simp only [isOverriding] at h
  have branch : ∀ (tr : Option (Chars × Chars)),
      (∀ t r, tr = some (t, r) → cs.drop (cs.takeWhile isWS).length = t ++ r) →
      ovBranch (cs.takeWhile isWS).length tr = some m →
      m.ws = (cs.takeWhile isWS).length ∧
      m.total = m.ws + m.existing.length + 1 + m.newTok.length ∧
      ∃ r, cs.drop m.ws = m.existing ++ ' ' :: m.newTok ++ r := by
    intro tr hsound hb
    obtain ⟨t, r, nt, htr, hnew, hm⟩ := ovBranch_sound _ tr m hb
    obtain ⟨r', hr'⟩ := matchNew_sound r nt hnew
    subst hm
    refine ⟨rfl, rfl, r', ?_⟩
    rw [hsound t (' ' :: r) htr, hr']
    simp
  cases h1 : ovBranch (cs.takeWhile isWS).length
      (matchCheckboxTok (cs.drop (cs.takeWhile isWS).length)) with
  | some m' =>
    rw [h1] at h
    cases h
    exact branch _ (fun t r ht => matchCheckboxTok_sound _ t r ht) h1
  | none =>
    rw [h1] at h
    cases h2 : ovBranch (cs.takeWhile isWS).length
        (matchBulletTok (cs.drop (cs.takeWhile isWS).length)) with
    | some m' =>
      rw [h2] at h
      cases h
      exact branch _ (fun t r ht => matchBulletTok_sound _ t r ht) h2
    | none =>
      rw [h2] at h
      exact branch _ (fun t r ht => matchNumberTok_sound _ t r ht) h

/- ## Claim theorems -/

/-- Claim C1 (code_bug evaluation): for the line "- a" — indentation empty,
paragraph-style token "-", one following space — LINE_START_BLOCK does match
and captures the two-character group under the name "prefix", yet the
classifier used by selectLine reports prefix length 0, not 2, because it looks
up the absent names "prefix0" and "prefix1". -/
theorem classifier_reports_zero_for_prefixed_line :
    lineStartBlock (str "- a") = some [("prefix", str "- ")] ∧
    paragraphStart (str "- a") = 0 := by decide

/-- Claim C2: whenever the normalized start and end of a selection lie on
different lines, selectLine expands to the full line range, from column 0 of
the start line to the end of the end line, for every value of avoidPrefixes. -/
theorem selectLine_multiline (doc : Doc) (sel : Sel) (avoid : Bool)
    (h : (orderPositions sel.anchor sel.head).1.line ≠
         (orderPositions sel.anchor sel.head).2.line) :
    selectLine doc sel avoid =
      ⟨⟨(orderPositions sel.anchor sel.head).1.line, 0⟩,
       ⟨(orderPositions sel.anchor sel.head).2.line,
        (getLine doc (orderPositions sel.anchor sel.head).2.line).length⟩⟩ := by
  simp only [selectLine]
  rw [if_pos (Or.inl h)]

/-- Witness for C2 at a concrete two-line document and reversed-direction
selection, with avoidPrefixes true. -/
theorem selectLine_multiline_witness :
    (orderPositions (Pos.mk 1 2) (Pos.mk 0 1)).1.line ≠
      (orderPositions (Pos.mk 1 2) (Pos.mk 0 1)).2.line ∧
    selectLine [str "ab", str "cde"] ⟨⟨1, 2⟩, ⟨0, 1⟩⟩ true = ⟨⟨0, 0⟩, ⟨1, 3⟩⟩ :=
  ⟨by decide,
   (selectLine_multiline [str "ab", str "cde"] ⟨⟨1, 2⟩, ⟨0, 1⟩⟩ true
     (by decide)).trans (by decide)⟩

/-- Claim C3 (code_bug evaluation): on the line "- [ ] task" the checkbox
alternative of LINE_START_BLOCK wins over the bullet alternative, capturing the
six-character group "- [ ] " — but the expansion of a caret at column 0 with
avoidPrefixes on yields (0,0)..(0,10), not the claimed (0,6)..(0,10), because
the group lookup in selectLine misses the group name. -/
theorem checkbox_precedence_and_selection_eval :
    lineStartBlock (str "- [ ] task") = some [("prefix", str "- [ ] ")] ∧
    selectLine [str "- [ ] task"] ⟨⟨0, 0⟩, ⟨0, 0⟩⟩ true = ⟨⟨0, 0⟩, ⟨0, 10⟩⟩ := by
  decide

/-- Claim C8, counterexample: a reversed single-line selection whose normalized
start is at the detected prefix end (column 0 here, the line has no prefix) and
whose end is at the line end is not returned unchanged — selectLine discards
the input direction, so the output anchor and head differ from the input's. -/
theorem selectLine_direction_counterexample :
    paragraphStart (str "ab") = 0 ∧
    selectLine [str "ab"] ⟨⟨0, 2⟩, ⟨0, 0⟩⟩ true = ⟨⟨0, 0⟩, ⟨0, 2⟩⟩ ∧
    Sel.mk ⟨0, 0⟩ ⟨0, 2⟩ ≠ Sel.mk ⟨0, 2⟩ ⟨0, 0⟩ := by decide

/-- Claim C8, amended: a forward-oriented single-line selection whose anchor
is at the end of the line's detected prefix (as the code detects it) and whose
head is at the end of the line is a fixed point of selectLine with
avoidPrefixes true. -/
theorem selectLine_idempotent_forward (doc : Doc) (l : Nat) :
    selectLine doc ⟨⟨l, paragraphStart (getLine doc l)⟩,
                    ⟨l, (getLine doc l).length⟩⟩ true =
      ⟨⟨l, paragraphStart (getLine doc l)⟩, ⟨l, (getLine doc l).length⟩⟩ := by
  rw [paragraphStart_eq_zero]
  simp only [selectLine, orderPositions]
  rcases Nat.eq_zero_or_pos (getLine doc l).length with hz | hp
  · simp [hz, paragraphStart_eq_zero]
  · simp [hp, Nat.lt_irrefl, paragraphStart_eq_zero]

/-- Claim C9: every selection selectLine returns is direction-normalized
(anchor at or before head in document order), and the result depends only on
the unordered pair of endpoints, so the input's direction is discarded. -/
theorem selectLine_output_normalized :
    (∀ (doc : Doc) (sel : Sel) (avoid : Bool),
      (selectLine doc sel avoid).anchor.line < (selectLine doc sel avoid).head.line ∨
      ((selectLine doc sel avoid).anchor.line = (selectLine doc sel avoid).head.line ∧
       (selectLine doc sel avoid).anchor.ch ≤ (selectLine doc sel avoid).head.ch)) ∧
    (∀ (doc : Doc) (a h : Pos) (avoid : Bool),
      selectLine doc ⟨a, h⟩ avoid = selectLine doc ⟨h, a⟩ avoid) := by
  constructor
  · intro doc sel avoid
    have hle := orderPositions_fst_line_le sel.anchor sel.head
    simp only [selectLine]
    split
    · by_cases hl : (orderPositions sel.anchor sel.head).1.line =
          (orderPositions sel.anchor sel.head).2.line
      · right; exact ⟨hl, Nat.zero_le _⟩
      · left; exact Nat.lt_of_le_of_ne hle hl
    · right
      refine ⟨rfl, ?_⟩
      rw [paragraphStart_eq_zero]
      exact Nat.zero_le _
  · intro doc a h avoid
    simp only [selectLine, orderPositions_swap a h]

/-- Claim C6: tryReplace produces an edit exactly when IS_OVERRIDING matches
the line, the total matched length equals the cursor offset, and the existing
and new tokens differ textually; in every other case it is a no-op. -/
theorem tryReplace_fires_iff (line : Chars) (ch : Nat) :
    (tryReplace line ch).isSome = true ↔
      ∃ m, isOverriding line = some m ∧ m.total = ch ∧ m.existing ≠ m.newTok := by
  constructor
  · intro hs
    obtain ⟨e, he⟩ := Option.isSome_iff_exists.mp hs
    unfold tryReplace at he
    cases hm : isOverriding line with
    | none => rw [hm] at he; cases he
    | some m =>
      simp only [hm] at he
      split_ifs at he with h1 h2
      exact ⟨m, rfl, not_not.mp h1, fun hEq => h2 hEq.symm⟩
  · rintro ⟨m, hm, h1, h2⟩
    unfold tryReplace
    simp only [hm]
    rw [if_neg (fun hne => hne h1), if_neg (fun hEq => h2 hEq.symm)]
    rfl

/-- Claim C7, counterexample: for the line consisting of dash, space, one,
dot, space, with the cursor at offset 4, the produced edit replaces characters
0 through 4 (the whole match) with the new token, not characters 0 through 1
(the existing token only) as the claim states. -/
theorem tryReplace_span_counterexample :
    tryReplace (str "- 1. ") 4 = some (Edit.mk 0 4 (str "1.")) ∧
    Edit.mk 0 4 (str "1.") ≠ Edit.mk 0 1 (str "1.") := by decide

/-- Claim C7, amended: whenever tryReplace fires, the edit replaces the span
from the end of the leading whitespace to the end of the whole IS_OVERRIDING
match (that is, through the end of the newly typed token) with the new token
text; the replaced slice of the line is exactly existing token, one space,
new token. -/
theorem tryReplace_edit_spans_match (line : Chars) (ch : Nat) (e : Edit)
    (h : tryReplace line ch = some e) :
    ∃ m, isOverriding line = some m ∧
      e.fromCh = m.ws ∧ e.toCh = m.total ∧ e.text = m.newTok ∧
      (line.take m.ws).all isWS = true ∧
      (line.drop m.ws).take (m.total - m.ws) = m.existing ++ ' ' :: m.newTok := by
  unfold tryReplace at h
  cases hm : isOverriding line with
  | none => rw [hm] at h; cases h
  | some m =>
    simp only [hm] at h
    split_ifs at h with h1 h2
    cases h
    obtain ⟨hws, htot, r, hdrop⟩ := isOverriding_sound line m hm
    refine ⟨m, rfl, rfl, rfl, rfl, ?_, ?_⟩
    · rw [hws, take_length_takeWhile]
      exact List.all_eq_true.mpr (fun c hc => List.mem_takeWhile_imp hc)
    · rw [hdrop, htot]
      have harith : m.ws + m.existing.length + 1 + m.newTok.length - m.ws =
          m.existing.length + 1 + m.newTok.length := by omega
      rw [harith]
      have hassoc : m.existing ++ ' ' :: m.newTok ++ r =
          (m.existing ++ ' ' :: m.newTok) ++ r := by simp
      rw [hassoc]
      exact List.take_left' (by simp; omega)

/-- Witness for the amended C7 at the concrete line dash, space, one, dot,
space with cursor offset 4: the match is whitespace length 0, existing token
dash, new token one-dot, total 4, and the replaced slice is the
dash-space-one-dot span. -/
theorem tryReplace_edit_spans_match_witness :
    tryReplace (str "- 1. ") 4 = some (Edit.mk 0 4 (str "1.")) ∧
    ((str "- 1. ").drop 0).take (4 - 0) = str "-" ++ ' ' :: str "1." := by
  have h : tryReplace (str "- 1. ") 4 = some (Edit.mk 0 4 (str "1.")) := by decide
  obtain ⟨m, hm, h1, h2, h3, h4, h5⟩ :=
    tryReplace_edit_spans_match (str "- 1. ") 4 (Edit.mk 0 4 (str "1.")) h
  have hmv : m = OvMatch.mk 0 (str "-") (str "1.") 4 := by
    have hov : isOverriding (str "- 1. ") =
        some (OvMatch.mk 0 (str "-") (str "1.") 4) := by decide
    rw [hov] at hm
    exact (Option.some_inj.mp hm).symm
  subst hmv
  exact ⟨h, h5⟩

/-- Claim C10: when tryReplace fires on the line at index n of a document, the
applied edit changes no other line, and the cursor's line keeps its leading
whitespace and everything after the match end, with only the span between them
replaced by the new token. -/
theorem tryReplace_frame (doc : Doc) (n ch : Nat) (e : Edit)
    (hn : n < doc.length)
    (h : tryReplace (getLine doc n) ch = some e) :
    (∀ j, j ≠ n → getLine (applyEdit doc n e) j = getLine doc j) ∧
    ∃ m, isOverriding (getLine doc n) = some m ∧
      getLine (applyEdit doc n e) n =
        (getLine doc n).take m.ws ++ m.newTok ++ (getLine doc n).drop m.total := by
  have hset : getLine (applyEdit doc n e) n =
      (getLine doc n).take e.fromCh ++ e.text ++ (getLine doc n).drop e.toCh := by
    unfold applyEdit getLine
    rw [List.getD_eq_getElem?_getD, List.getElem?_set_self hn]
    rfl
  constructor
  · intro j hj
    unfold applyEdit getLine
    rw [List.getD_eq_getElem?_getD, List.getElem?_set_ne (Ne.symm hj),
      List.getD_eq_getElem?_getD]
  · unfold tryReplace at h
    cases hm : isOverriding (getLine doc n) with
    | none => rw [hm] at h; cases h
    | some m =>
      simp only [hm] at h
      split_ifs at h with h1 h2
      cases h
      exact ⟨m, rfl, hset⟩

/-- Witness for C10 on the two-line document whose first line is dash, space,
one, dot, space: the edit leaves the second line untouched and rewrites the
first line to the new token followed by the untouched tail. -/
theorem tryReplace_frame_witness :
    tryReplace (getLine [str "- 1. ", str "x"] 0) 4 = some (Edit.mk 0 4 (str "1.")) ∧
    getLine (applyEdit [str "- 1. ", str "x"] 0 (Edit.mk 0 4 (str "1."))) 1 =
      getLine [str "- 1. ", str "x"] 1 :=
  ⟨by decide,
   (tryReplace_frame [str "- 1. ", str "x"] 0 4 (Edit.mk 0 4 (str "1."))
     (by decide) (by decide)).1 1 (by decide)⟩

/- ## Trim lemmas and the fence-parity step -/

/-- Trimming yields the empty string exactly when every character is
whitespace. -/
theorem trimChars_eq_nil_iff (l : Chars) :
    trimChars l = [] ↔ ∀ c ∈ l, isWS c = true := by
  unfold trimChars
  rw [List.reverse_eq_nil_iff, List.dropWhile_eq_nil_iff]
  constructor
  · intro h c hc
    have hsplit := List.takeWhile_append_dropWhile isWS l
    rw [← hsplit] at hc
    rcases List.mem_append.mp hc with h1 | h2
    · exact List.mem_takeWhile_imp h1
    · exact h c (List.mem_reverse.mpr h2)
  · intro h c hc
    exact h c ((List.dropWhile_sublist isWS).subset (List.mem_reverse.mp hc))

theorem fenceStep_fence (rest : Chars) (ins : Bool) :
    fenceStep ins (bt :: bt :: bt :: rest) =
      if trimChars rest = [] then !ins else true := by
  have hbt : isWS bt = false := by decide
  have hdrop : (bt :: bt :: bt :: rest).dropWhile isWS = bt :: bt :: bt :: rest := by
    rw [List.dropWhile_cons, hbt]
    simp
  have hrev : (bt :: bt :: bt :: rest).reverse = rest.reverse ++ [bt, bt, bt] := by
    simp
  by_cases h : trimChars rest = []
  · have hall : ∀ c ∈ rest, isWS c = true := (trimChars_eq_nil_iff rest).mp h
    have hrall : rest.reverse.dropWhile isWS = [] :=
      List.dropWhile_eq_nil_iff.mpr (fun x hx => hall x (List.mem_reverse.mp hx))
    have ht : trimChars (bt :: bt :: bt :: rest) = [bt, bt, bt] := by
      unfold trimChars
      rw [hdrop, hrev, List.dropWhile_append, hrall]
      simp [List.dropWhile_cons, hbt]
    unfold fenceStep
    rw [ht, if_pos h, if_neg (by decide)]
  · have hne : rest.reverse.dropWhile isWS ≠ [] := by
      intro hnil
      exact h ((trimChars_eq_nil_iff rest).mpr (fun c hc =>
        List.dropWhile_eq_nil_iff.mp hnil c (List.mem_reverse.mpr hc)))
    have ht : trimChars (bt :: bt :: bt :: rest) =
        [bt, bt, bt] ++ (rest.reverse.dropWhile isWS).reverse := by
      unfold trimChars
      rw [hdrop, hrev, List.dropWhile_append,
        if_neg (by simpa [List.isEmpty_iff] using hne)]
      simp
    have hlen : 3 < (trimChars (bt :: bt :: bt :: rest)).length := by
      rw [ht]
      have : 0 < (rest.reverse.dropWhile isWS).length := List.length_pos.mpr hne
      simp
      omega
    unfold fenceStep
    rw [if_pos hlen, if_neg h]

/-- Either order of the two endpoints is returned by orderPositions. -/
theorem orderPositions_cases (a h : Pos) :
    orderPositions a h = (a, h) ∨ orderPositions a h = (h, a) := by
  unfold orderPositions
  split_ifs <;> simp

/-- Claim C4, counterexample: a line of three backticks followed only by a
single space — trailing text that trims to nothing — is matched by the
code-fence alternative of LINE_START_BLOCK, contradicting the claim that such
lines are never classified as fence-style block prefixes (the dot in the
pattern accepts the space). -/
theorem fence_trailing_ws_counterexample :
    fenceStyleMatch (str "``` ") = true ∧ trimChars (str " ") = [] := by decide

/-- Claim C4, amended: every line matched by the code-fence alternative of
LINE_START_BLOCK reports prefix length zero, so single-line expansion on such
a line starts at column 0; a bare fence with nothing at all after the
backticks is not matched, but a fence followed only by whitespace is matched
as fence-style (the pattern requires one following character of any kind). -/
theorem fence_prefix_length_zero :
    (∀ cs, codeblockAlt cs = true → paragraphStart cs = 0) ∧
    (∀ (doc : Doc) (l a h : Nat), codeblockAlt (getLine doc l) = true →
      (selectLine doc ⟨⟨l, a⟩, ⟨l, h⟩⟩ true).anchor = ⟨l, 0⟩) ∧
    lineStartBlock (str "```") = none ∧
    fenceStyleMatch (str "``` ") = true := by
  refine ⟨fun cs _ => paragraphStart_eq_zero cs, ?_, by decide, by decide⟩
  intro doc l a h _
  simp only [selectLine]
  rcases orderPositions_cases ⟨l, a⟩ ⟨l, h⟩ with hc | hc <;>
    rw [hc] <;> simp [paragraphStart_eq_zero]

/-- Witness for the amended C4 on the concrete fence line of three backticks
followed by a language tag. -/
theorem fence_prefix_length_zero_witness :
    codeblockAlt (str "```py") = true ∧
    paragraphStart (str "```py") = 0 ∧
    (selectLine [str "```py"] ⟨⟨0, 2⟩, ⟨0, 4⟩⟩ true).anchor = ⟨0, 0⟩ :=
  ⟨by decide, fence_prefix_length_zero.1 (str "```py") (by decide),
   fence_prefix_length_zero.2.1 [str "```py"] 0 2 4 (by decide)⟩

/-- Claim C5: the fence-parity step of the code-block locator marks an opener
(inside becomes true) for every fence match whose trailing text trims to
something non-empty and toggles the inside flag for every bare fence match;
on the three-line python-tagged document and on the bare-fence document the
locator returns the interior line range 1..1 (anchor at line 1 column 0, head
at line 1 end), and on a single unclosed bare fence it returns none. -/
theorem codeBlockLocator_parity :
    (∀ (rest : Chars) (ins : Bool),
      fenceStep ins (bt :: bt :: bt :: rest) =
        if trimChars rest = [] then !ins else true) ∧
    trySelectCodeBlock [str "```python", str "code", str "```"]
        ⟨⟨1, 0⟩, ⟨1, 0⟩⟩ = some ⟨⟨1, 0⟩, ⟨1, 4⟩⟩ ∧
    trySelectCodeBlock [str "``` ", str "code", str "```"]
        ⟨⟨1, 0⟩, ⟨1, 0⟩⟩ = some ⟨⟨1, 0⟩, ⟨1, 4⟩⟩ ∧
    trySelectCodeBlock [str "```", str "x"] ⟨⟨1, 0⟩, ⟨1, 0⟩⟩ = none :=
  ⟨fenceStep_fence, by decide, by decide, by decide⟩

end Blockier
